import Mathlib

/-!
# Verification of the mpr-thing protocol/concurrency core

A shallow embedding, in Lean 4, of the parts of the `mpr-thing` repository
that the specification's claims talk about:

* the prompt detector of the interactive REPL loop
  (`src/mpr_thing/mpr_thing.py`, `my_do_repl_main_loop`);
* the `raw_repl` nesting context manager (`src/mpr_thing/catcher.py`);
* the host-side filesystem operations of `Board`
  (`check_files`, `cp`, `mv`, `check_remote_is_up_to_date`, `put_file`);
* the device-side helper `_MagicHelper.rm` (`board/cmd_helper.py`);
* the cursor-position console query (`query_console` / `cursor_column`);
* the `RemotePath` stat wrapper (`remote_path.py`);
* the restricted literal grammar used to interpret helper responses
  (`Board.eval_json`).

Python byte strings are embedded as `List Nat` (one entry per byte),
Python text strings as `String` or `List Char`, Python ints as `Int`
(arbitrary precision, like Python), and posix paths on the device as their
canonical component lists (`List String`).  Functions that mutate state are
embedded as explicit state-passing functions, and functions that perform
device I/O return, in addition, the list of device-level actions they issue,
in order.
-/

namespace MprThing

/-! ## RemotePath (src/src/mpr_thing/remote_path.py)

`RemotePath` subclasses `PurePosixPath` and carries `mode`, `size`, `mtime`
and `_exists` attributes.  The path itself is embedded as its canonical
posix component list (absolute device paths); the stat attributes follow
`remote_path.py` exactly.  `stat.S_IFDIR = 0x4000` and
`stat.S_IFREG = 0x8000` are the CPython `stat` module constants used by
`is_dir` / `is_file`.
-/

def S_IFDIR : Int := 0x4000

def S_IFREG : Int := 0x8000

structure RemotePath where
  /-- canonical posix components of the path, e.g. `/lib/sub` ↦ `["lib", "sub"]` -/
  comps : List String
  mode : Int
  size : Int
  mtime : Int
  _exists : Bool
deriving DecidableEq, Repr

/-- `RemotePath.__init__`: all stat attributes start zeroed, `_exists = False`. -/
def RemotePath.init (comps : List String) : RemotePath :=
  { comps := comps, mode := 0, size := 0, mtime := 0, _exists := false }

/-- `RemotePath.set_modes(stat)` with the class attribute `epoch_offset`
passed explicitly:
`mode = stat[0] if stat else 0`,
`size = stat[1] if stat[1:] else -1`,
`mtime = stat[2] + epoch_offset if stat[2:] else -1`,
`_exists = bool(stat)`. -/
def RemotePath.set_modes (epoch_offset : Int) (p : RemotePath) (stat : List Int) :
    RemotePath :=
  { p with
    mode := match stat with | [] => 0 | m :: _ => m
    size := match stat with | _ :: s :: _ => s | _ => -1
    mtime := match stat with | _ :: _ :: t :: _ => t + epoch_offset | _ => -1
    _exists := stat ≠ [] }

/-- `RemotePath.modes()`:
`[mode, size, mtime - epoch_offset] if _exists else []`. -/
def RemotePath.modes (epoch_offset : Int) (p : RemotePath) : List Int :=
  if p._exists then [p.mode, p.size, p.mtime - epoch_offset] else []

/-- `RemotePath.exists()`. -/
def RemotePath.exists (p : RemotePath) : Bool := p._exists

/-- `RemotePath.is_dir()`: `_exists and (mode & S_IFDIR) != 0`. -/
def RemotePath.is_dir (p : RemotePath) : Bool :=
  p._exists && Int.land p.mode S_IFDIR ≠ 0

/-- `RemotePath.is_file()`: `_exists and (mode & S_IFREG) != 0`. -/
def RemotePath.is_file (p : RemotePath) : Bool :=
  p._exists && Int.land p.mode S_IFREG ≠ 0

end MprThing

namespace MprThing

/-! ## The raw_repl context manager (src/src/mpr_thing/catcher.py)

The state of the `mpremote` transport that `raw_repl` consults is the
boolean `in_raw_repl` flag.  Device-level interactions are recorded as a
trace of `DevAction`s.

Modelled from the spec: the `mpremote` library functions called by
`catcher.py` are not part of this repository's sources.  Per spec §6,
`enter_raw_repl` sends control byte `0x01` (and sets `in_raw_repl`),
`exit_raw_repl` sends the raw-mode-exit control byte `0x02` (and clears
`in_raw_repl`), and `read_until(4, b">>> ")` blocks until the friendly
prompt reappears.  They are embedded as the atomic trace actions
`enterRaw`, `exitRaw` and `readUntilPrompt`.
-/

/-- Device-level actions issued by the session layer. -/
inductive DevAction where
  /-- `pyb.enter_raw_repl(soft_reset)`: the device-level raw-mode entry. -/
  | enterRaw : DevAction
  /-- `pyb.exit_raw_repl()`: the device-level raw-mode exit (control byte 0x02). -/
  | exitRaw : DevAction
  /-- `pyb.serial.write(bs)`: raw bytes written to the serial port. -/
  | serialWrite : List Nat → DevAction
  /-- `pyb.read_until(4, b">>> ")`: wait for the friendly prompt. -/
  | readUntilPrompt : DevAction
deriving DecidableEq, Repr

/-- The transport state observed by `raw_repl`. -/
structure PybState where
  in_raw_repl : Bool
deriving DecidableEq, Repr

/-- `pyb.enter_raw_repl`: device-level raw-mode entry; sets `in_raw_repl`. -/
def enter_raw_repl (_st : PybState) : PybState × List DevAction :=
  ({ in_raw_repl := true }, [DevAction.enterRaw])

/-- `pyb.exit_raw_repl` followed by `pyb.read_until(4, b">>> ")`, exactly the
pair of calls `catcher.raw_repl` makes on the exit path: device-level
raw-mode exit, then wait for the friendly prompt. -/
def exit_raw_repl_and_wait (_st : PybState) : PybState × List DevAction :=
  ({ in_raw_repl := false }, [DevAction.exitRaw, DevAction.readUntilPrompt])

/-- The `__enter__` part of `catcher.raw_repl` (the code before `yield`):
`if not pyb.in_raw_repl: restore_repl = True; pyb.enter_raw_repl(...)`.
Returns the local `restore_repl`, the new transport state and the trace. -/
def raw_repl_enter (st : PybState) : Bool × PybState × List DevAction :=
  if !st.in_raw_repl then
    let (st', t) := enter_raw_repl st
    (true, st', t)
  else
    (false, st, [])

/-- The `finally:` clause of `catcher.raw_repl`:
`if restore_repl and pyb.in_raw_repl: pyb.exit_raw_repl(); pyb.read_until(4, b">>> ")`. -/
def raw_repl_finally (restore_repl : Bool) (st : PybState) :
    PybState × List DevAction :=
  if restore_repl && st.in_raw_repl then
    exit_raw_repl_and_wait st
  else
    (st, [])

/-- How the body of a `with raw_repl(...)` block terminates. -/
inductive BodyOutcome where
  /-- the body returned normally -/
  | ok : BodyOutcome
  /-- a `KeyboardInterrupt` was raised while the body (e.g. an outstanding
  `exec`) was running -/
  | keyboardInterrupt : BodyOutcome
deriving DecidableEq, Repr

/-- One full `with raw_repl(pyb, ...):` block of `catcher.raw_repl` around a
body with the given outcome.  On `KeyboardInterrupt` the handler runs
`pyb.serial.write(b"\r\x03\x03")` (bytes 13, 3, 3) and swallows the
exception; then the `finally:` clause runs in every case. -/
def raw_repl_run (st : PybState) (body : BodyOutcome) : PybState × List DevAction :=
  let (restore, st1, t1) := raw_repl_enter st
  let t2 : List DevAction :=
    match body with
    | BodyOutcome.ok => []
    | BodyOutcome.keyboardInterrupt => [DevAction.serialWrite [13, 3, 3]]
  let (st3, t3) := raw_repl_finally restore st1
  (st3, t1 ++ t2 ++ t3)

/-- `N`-fold nested use of `raw_repl` (each level's `__enter__` runs, then
the next level nests inside it, then this level's `finally:` runs), with all
bodies completing normally: `with raw_repl: with raw_repl: ... pass`. -/
def nested_raw_repl : Nat → PybState → PybState × List DevAction
  | 0, st => (st, [])
  | n + 1, st =>
    let (restore, st1, t1) := raw_repl_enter st
    let (st2, t2) := nested_raw_repl n st1
    let (st3, t3) := raw_repl_finally restore st2
    (st3, t1 ++ t2 ++ t3)

end MprThing

namespace MprThing

/-! ## Theorems for C10, C2, C8 -/

/-- For every `n`, a nested `raw_repl` block whose transport is already in
raw mode performs no device action at all and leaves the state unchanged. -/
theorem nested_raw_repl_inner (n : Nat) :
    nested_raw_repl n { in_raw_repl := true } = ({ in_raw_repl := true }, []) := by
  induction n with
  | zero => rfl
  | succ m ih =>
    simp [nested_raw_repl, raw_repl_enter, raw_repl_finally, ih]

/-- C10: for every path, integer triple `(mode, size, mtime)` and value of the
class-level `epoch_offset`, `RemotePath(p).set_modes([mode, size, mtime])`
yields an entry with `exists()` true whose `modes()` returns exactly
`[mode, size, mtime]` (the epoch offset added to `mtime` on set is subtracted
again on read); for the empty stat sequence, `exists()` is false, `modes()`
returns `[]`, and `is_dir()` and `is_file()` both return false. -/
theorem C10_set_modes_modes_roundtrip
    (comps : List String) (mode size mtime epoch_offset : Int) :
    (RemotePath.exists
        (RemotePath.set_modes epoch_offset (RemotePath.init comps)
          [mode, size, mtime]) = true
      ∧ RemotePath.modes epoch_offset
          (RemotePath.set_modes epoch_offset (RemotePath.init comps)
            [mode, size, mtime]) = [mode, size, mtime])
    ∧ (RemotePath.exists
          (RemotePath.set_modes epoch_offset (RemotePath.init comps) []) = false
      ∧ RemotePath.modes epoch_offset
          (RemotePath.set_modes epoch_offset (RemotePath.init comps) []) = []
      ∧ RemotePath.is_dir
          (RemotePath.set_modes epoch_offset (RemotePath.init comps) []) = false
      ∧ RemotePath.is_file
          (RemotePath.set_modes epoch_offset (RemotePath.init comps) []) = false) := by
  refine ⟨⟨rfl, ?_⟩, rfl, rfl, ?_, ?_⟩
  · simp [RemotePath.set_modes, RemotePath.init, RemotePath.modes, RemotePath.exists]
  · simp [RemotePath.set_modes, RemotePath.init, RemotePath.is_dir]
  · simp [RemotePath.set_modes, RemotePath.init, RemotePath.is_file]

/-- C2: entering the raw-REPL context `N ≥ 1` times (nested) followed by
exiting `N` times, starting outside raw mode, causes exactly one device-level
raw-mode entry and exactly one device-level raw-mode exit (each on the
outermost level); the inner `N - 1` enters and exits perform no device-mode
change, and the final state is back out of raw mode. -/
theorem C2_raw_repl_nesting (n : Nat) (h : 1 ≤ n) :
    nested_raw_repl n { in_raw_repl := false } =
      ({ in_raw_repl := false },
        [DevAction.enterRaw, DevAction.exitRaw, DevAction.readUntilPrompt])
    ∧ (nested_raw_repl (n - 1) { in_raw_repl := true }).2 = []
    ∧ List.count DevAction.enterRaw
        (nested_raw_repl n { in_raw_repl := false }).2 = 1
    ∧ List.count DevAction.exitRaw
        (nested_raw_repl n { in_raw_repl := false }).2 = 1 := by
  obtain ⟨m, rfl⟩ : ∃ m, n = m + 1 := ⟨n - 1, (Nat.succ_pred_eq_of_pos h).symm⟩
  have hmain : nested_raw_repl (m + 1) { in_raw_repl := false } =
      ({ in_raw_repl := false },
        [DevAction.enterRaw, DevAction.exitRaw, DevAction.readUntilPrompt]) := by
    simp [nested_raw_repl, raw_repl_enter, enter_raw_repl,
      nested_raw_repl_inner, raw_repl_finally, exit_raw_repl_and_wait]
  refine ⟨hmain, ?_, ?_, ?_⟩
  · simp [nested_raw_repl_inner]
  · rw [hmain]; rfl
  · rw [hmain]; rfl

/-- Witness for C2 at `n = 3`. -/
theorem C2_raw_repl_nesting_witness :
    nested_raw_repl 3 { in_raw_repl := false } =
      ({ in_raw_repl := false },
        [DevAction.enterRaw, DevAction.exitRaw, DevAction.readUntilPrompt])
    ∧ (nested_raw_repl 2 { in_raw_repl := true }).2 = []
    ∧ List.count DevAction.enterRaw
        (nested_raw_repl 3 { in_raw_repl := false }).2 = 1
    ∧ List.count DevAction.exitRaw
        (nested_raw_repl 3 { in_raw_repl := false }).2 = 1 :=
  C2_raw_repl_nesting 3 (by decide)

/-- C8: if a `KeyboardInterrupt` is raised while the body of an outermost
`raw_repl` block (e.g. an outstanding raw-REPL execute) is running, the
session writes the serial bytes `b"\r\x03\x03"` - containing the interrupt
control byte `0x03` exactly twice - and then completes the normal exit
framing: the device-level raw-mode exit, then waiting for the friendly
prompt; the final state is out of raw mode, so the exit has completed. -/
theorem C8_interrupt_exit_framing (st : PybState) (h : st.in_raw_repl = false) :
    raw_repl_run st BodyOutcome.keyboardInterrupt =
      ({ in_raw_repl := false },
        [DevAction.enterRaw, DevAction.serialWrite [13, 3, 3],
          DevAction.exitRaw, DevAction.readUntilPrompt])
    ∧ List.count 3 [13, 3, 3] = 2 := by
  refine ⟨?_, rfl⟩
  simp [raw_repl_run, raw_repl_enter, enter_raw_repl, h, raw_repl_finally,
    exit_raw_repl_and_wait]

/-- Witness for C8 at the concrete initial state. -/
theorem C8_interrupt_exit_framing_witness :
    raw_repl_run { in_raw_repl := false } BodyOutcome.keyboardInterrupt =
      ({ in_raw_repl := false },
        [DevAction.enterRaw, DevAction.serialWrite [13, 3, 3],
          DevAction.exitRaw, DevAction.readUntilPrompt])
    ∧ List.count 3 [13, 3, 3] = 2 :=
  C8_interrupt_exit_framing { in_raw_repl := false } rfl

end MprThing

namespace MprThing

/-! ## The prompt detector of the interactive REPL loop
(src/src/mpr_thing/mpr_thing.py, `my_do_repl_main_loop`)

The loop keeps `seen_prompt : bool` and `serial_buffer : bytes` and, for
every chunk `dev_data_in` read from the serial port, executes

```
if b"\n" in dev_data_in:
    seen_prompt = False
serial_buffer += dev_data_in
if not seen_prompt:
    seen_prompt = prompt in serial_buffer
serial_buffer = serial_buffer[-len(prompt):]
```

with `prompt = b"\n>>> "` (bytes `[10, 62, 62, 62, 32]`).  `serial_update`
is that chunk step; `feed_bytes` feeds a byte sequence one byte at a time
(each serial read delivering one byte), starting from
`seen_prompt = False, serial_buffer = b""`.  `p <:+: l` is Python's
substring test `p in l`, `p <:+ l` is "l ends with p".
-/

def prompt : List Nat := [10, 62, 62, 62, 32]

structure SerialView where
  seen_prompt : Bool
  serial_buffer : List Nat
deriving DecidableEq, Repr

def serial_update (st : SerialView) (dev_data_in : List Nat) : SerialView :=
  let seen1 : Bool := if dev_data_in.contains 10 then false else st.seen_prompt
  let buf := st.serial_buffer ++ dev_data_in
  let seen2 : Bool := if !seen1 then decide (prompt <:+: buf) else seen1
  { seen_prompt := seen2, serial_buffer := buf.drop (buf.length - prompt.length) }

def feed_bytes (bs : List Nat) : SerialView :=
  bs.foldl (fun st b => serial_update st [b]) { seen_prompt := false, serial_buffer := [] }


theorem feed_bytes_append_singleton (h : List Nat) (b : Nat) :
    feed_bytes (h ++ [b]) = serial_update (feed_bytes h) [b] := by
  simp [feed_bytes, List.foldl_append]

theorem suffix_iff_suffix_of_suffix {α : Type} (p s t : List α)
    (hst : s <:+ t) (hp : p.length ≤ s.length) : p <:+ s ↔ p <:+ t := by
  constructor
  · exact fun hps => hps.trans hst
  · intro hpt
    obtain ⟨u, rfl⟩ := hst
    rw [List.suffix_iff_eq_drop] at hpt ⊢
    rw [List.length_append] at hpt
    have harith : u.length + s.length - p.length = u.length + (s.length - p.length) := by
      omega
    rw [harith, List.drop_append] at hpt
    exact hpt

theorem drop_length_sub_suffix {α : Type} (l : List α) (k : Nat) :
    l.drop (l.length - k) <:+ l := List.drop_suffix _ _

theorem length_drop_length_sub {α : Type} (l : List α) (k : Nat) :
    (l.drop (l.length - k)).length = min k l.length := by
  rw [List.length_drop]; omega


theorem infix_concat_of_len5 (p s : List Nat) (b : Nat)
    (hp : p.length = 5) (hs : s.length ≤ 5) :
    p <:+: s ++ [b] ↔ p <:+ s ++ [b] ∨ p <:+ s := by
  constructor
  · rintro ⟨l, r, hlr⟩
    rcases List.eq_nil_or_concat r with rfl | ⟨r', x, rfl⟩
    · left
      exact ⟨l, by simpa using hlr⟩
    · right
      have hlen : l.length + (p.length + (r'.length + 1)) = s.length + 1 := by
        have := congrArg List.length hlr
        simpa [List.length_append] using this
      have hl : l = [] := by
        have : l.length = 0 := by omega
        exact List.eq_nil_of_length_eq_zero this
      have hr' : r' = [] := by
        have : r'.length = 0 := by omega
        exact List.eq_nil_of_length_eq_zero this
      subst hl; subst hr'
      have hps : p ++ [x] = s ++ [b] := by simpa using hlr
      have : p = s ∧ x = b := by
        constructor
        · have := congrArg List.dropLast hps
          simpa using this
        · have := congrArg List.getLast? hps
          simpa using this
      rw [this.1]
  · rintro (hsuf | hsuf)
    · exact hsuf.isInfix
    · exact hsuf.isInfix.trans (List.prefix_append s [b]).isInfix


theorem feed_bytes_buffer (h : List Nat) :
    (feed_bytes h).serial_buffer = h.drop (h.length - 5) := by
  induction h using List.reverseRecOn with
  | nil => rfl
  | append_singleton h b ih =>
    rw [feed_bytes_append_singleton, serial_update]
    simp only [ih]
    rcases le_or_lt h.length 5 with hle | hgt
    · have h0 : h.length - 5 = 0 := by omega
      simp only [h0, List.drop_zero]
      have hlb : (h ++ [b]).length - 5 = h.length + 1 - 5 := by
        simp [List.length_append]
      rcases le_or_lt h.length 4 with hle4 | heq5
      · have : (h ++ [b]).length - 5 = 0 := by simp [List.length_append]; omega
        simp [this, prompt]
      · have h5 : h.length = 5 := by omega
        have hdrop : (h ++ [b]).length - 5 = 1 := by simp [List.length_append]; omega
        simp [prompt, List.length_append, h5]
    · -- h.length > 5
      have hlen : (h.drop (h.length - 5)).length = 5 := by
        rw [List.length_drop]; omega
      have hstep : (h.drop (h.length - 5) ++ [b]).length - prompt.length = 1 := by
        simp [List.length_append, hlen, prompt]
      rw [hstep]
      have h1 : List.drop 1 (h.drop (h.length - 5) ++ [b])
          = List.drop 1 (h.drop (h.length - 5)) ++ [b] := by
        rw [List.drop_append_of_le_length]
        omega
      rw [h1, List.drop_drop]
      have h2 : h.length - 5 + 1 = (h ++ [b]).length - 5 := by
        simp [List.length_append]; omega
      rw [h2]
      rw [List.drop_append_of_le_length]
      simp [List.length_append]


theorem suffix_concat_gives_32 (u : List Nat) (x : Nat)
    (hs : prompt <:+ u ++ [x]) : x = 32 := by
  obtain ⟨w, hw⟩ := hs
  have h1 : (w ++ prompt).getLast? = some 32 := by
    show (w ++ ([10, 62, 62, 62] ++ [32])).getLast? = some 32
    rw [← List.append_assoc, List.getLast?_concat]
  rw [hw, List.getLast?_concat] at h1
  exact Option.some_inj.mp h1

theorem suffix_tail5 (h : List Nat) (p : List Nat) (hp : p.length = 5) :
    p <:+ h.drop (h.length - 5) ↔ p <:+ h := by
  rcases le_or_lt h.length 5 with hle | hgt
  · have h0 : h.length - 5 = 0 := by omega
    rw [h0, List.drop_zero]
  · exact suffix_iff_suffix_of_suffix p _ h (List.drop_suffix _ _)
      (by rw [List.length_drop]; omega)

theorem suffix_tail5_concat (h : List Nat) (b : Nat) (p : List Nat)
    (hp : p.length = 5) :
    p <:+ h.drop (h.length - 5) ++ [b] ↔ p <:+ h ++ [b] := by
  rcases le_or_lt h.length 5 with hle | hgt
  · have h0 : h.length - 5 = 0 := by omega
    rw [h0, List.drop_zero]
  · refine suffix_iff_suffix_of_suffix p _ _ ?_ ?_
    · obtain ⟨u, hu⟩ := List.drop_suffix (h.length - 5) h
      exact ⟨u, by rw [← List.append_assoc, hu]⟩
    · simp only [List.length_append, List.length_drop, List.length_singleton]
      omega

theorem seen_prompt_of_suffix_concat (h : List Nat) (b : Nat)
    (hs : prompt <:+ h ++ [b]) :
    (feed_bytes (h ++ [b])).seen_prompt = true := by
  have hb : b = 32 := suffix_concat_gives_32 h b hs
  rw [feed_bytes_append_singleton, serial_update]
  simp only [feed_bytes_buffer]
  have hlen5 : prompt.length = 5 := rfl
  have hinfix : prompt <:+: h.drop (h.length - 5) ++ [b] := by
    refine List.IsSuffix.isInfix ?_
    rw [suffix_tail5_concat h b prompt hlen5]
    exact hs
  have hcontains : List.contains [b] 10 = false := by subst hb; decide
  cases hseen : (feed_bytes h).seen_prompt <;> simp [hcontains, hseen, hinfix]

theorem seen_prompt_of_suffix (h : List Nat) (hs : prompt <:+ h) :
    (feed_bytes h).seen_prompt = true := by
  rcases List.eq_nil_or_concat h with rfl | ⟨u, b, rfl⟩
  · exact absurd (List.eq_nil_of_suffix_nil hs) (by decide)
  · rw [List.concat_eq_append] at hs ⊢
    exact seen_prompt_of_suffix_concat u b hs

theorem seen_prompt_step (h : List Nat) (b : Nat) :
    (feed_bytes (h ++ [b])).seen_prompt =
      if b = 10 then decide (prompt <:+ h)
      else ((feed_bytes h).seen_prompt || decide (prompt <:+ (h ++ [b]))) := by
  rw [feed_bytes_append_singleton, serial_update]
  simp only [feed_bytes_buffer]
  have hlen5 : prompt.length = 5 := rfl
  have htl : (h.drop (h.length - 5)).length ≤ 5 := by
    rw [List.length_drop]; omega
  have hinf : decide (prompt <:+: h.drop (h.length - 5) ++ [b])
      = decide (prompt <:+ (h ++ [b]) ∨ prompt <:+ h) := by
    apply decide_eq_decide.mpr
    rw [infix_concat_of_len5 prompt _ b hlen5 htl,
      suffix_tail5_concat h b prompt hlen5, suffix_tail5 h prompt hlen5]
  rcases eq_or_ne b 10 with rfl | hb
  · have hcontains : List.contains [10] 10 = true := by decide
    simp only [hcontains, if_true, Bool.not_false, if_pos rfl]
    simp only [hinf]
    have hnot : ¬ prompt <:+ (h ++ [10]) := by
      intro hcon
      have := suffix_concat_gives_32 h 10 hcon
      omega
    simp [hnot]
  · have hcontains : List.contains [b] 10 = false := by
      simp [List.contains, hb]
      omega
    simp only [hcontains, if_false, if_neg hb]
    rcases hseen : (feed_bytes h).seen_prompt with _ | _
    · simp only [Bool.not_false, if_true, hinf, Bool.false_or]
      apply decide_eq_decide.mpr
      constructor
      · rintro (hsuf | hsuf)
        · exact hsuf
        · exact absurd (seen_prompt_of_suffix h hsuf)
            (by rw [hseen]; exact Bool.false_ne_true)
      · exact fun hsuf => Or.inl hsuf
    · simp


/-- C1 counterexample: after the byte sequence `b"\n>>> \n"` - the idle
prompt literal followed by one more newline - the `seen_prompt` flag is
`true`, although the most recently seen bytes do not end with the
idle-prompt literal and the final byte is a newline that is not part of the
literal's final occurrence.  This refutes the claim that the flag becomes
false immediately after any such newline (equivalently, that the flag is
true only when the recent bytes end with the literal). -/
theorem C1_counterexample :
    (feed_bytes [10, 62, 62, 62, 32, 10]).seen_prompt = true
    ∧ ¬ prompt <:+ [10, 62, 62, 62, 32, 10]
    ∧ List.getLast? [10, 62, 62, 62, 32, 10] = some 10 := by decide

/-- C1 (amended): for every byte sequence fed to the detector,
(1) whenever the seen bytes end with the idle-prompt literal `b"\n>>> "`
the flag is true (so it becomes true exactly when the bytes end with the
literal: a non-newline byte can only raise it at such a moment, see (3));
(2) after a newline byte the flag is true exactly when the bytes preceding
that newline end with the literal - i.e. it becomes false immediately after
any newline byte unless the newline immediately follows a full occurrence
of the literal, in which case it stays true;
(3) a non-newline byte leaves the flag set, and raises it exactly when the
bytes now end with the literal. -/
theorem C1_amended_prompt_detector (h : List Nat) :
    (prompt <:+ h → (feed_bytes h).seen_prompt = true)
    ∧ (feed_bytes (h ++ [10])).seen_prompt = decide (prompt <:+ h)
    ∧ ∀ b, b ≠ 10 →
        (feed_bytes (h ++ [b])).seen_prompt
          = ((feed_bytes h).seen_prompt || decide (prompt <:+ (h ++ [b]))) := by
  refine ⟨seen_prompt_of_suffix h, ?_, ?_⟩
  · rw [seen_prompt_step]
    simp
  · intro b hb
    rw [seen_prompt_step]
    simp [hb]

/-- Witness for C1 (amended) at the concrete history `b"\n>>> "`. -/
theorem C1_amended_witness :
    (feed_bytes prompt).seen_prompt = true
    ∧ (feed_bytes (prompt ++ [10])).seen_prompt = decide (prompt <:+ prompt)
    ∧ (feed_bytes (prompt ++ [97])).seen_prompt
        = ((feed_bytes prompt).seen_prompt || decide (prompt <:+ (prompt ++ [97]))) :=
  ⟨(C1_amended_prompt_detector prompt).1 (by decide),
   (C1_amended_prompt_detector prompt).2.1,
   (C1_amended_prompt_detector prompt).2.2 97 (by decide)⟩

end MprThing

namespace MprThing

/-! ## Host-side put with change detection
(src/src/mpr_thing/board.py, `Board.check_remote_is_up_to_date` and
`Board.put_file`)

The source path on the host is embedded as `LocalPath`, carrying the
results of `local.stat()` that the code reads (`s[6]` = size, `round(s[8])`
= mtime) together with `is_file()` / `is_dir()`.  Option strings are lists
of characters; `opts.contains c` is Python's `c in opts`.  The device calls
issued by `put_file` (`transport.fs_put`, `self.mkdir`, the `uos.utime`
exec) are recorded as `PutAct`s.
-/

/-- `str(p)` for an absolute `PurePosixPath` given by its components. -/
def path_str (comps : List String) : String :=
  "/" ++ String.intercalate "/" comps

structure LocalPath where
  name : String
  size : Int
  mtime : Int
  is_dir : Bool
  is_file : Bool
deriving DecidableEq, Repr

/-- Device-mutating calls issued by `Board.put_file`. -/
inductive PutAct where
  /-- `self.transport.fs_put(str(filename), str(dest))` -/
  | fsPut (src dst : String)
  /-- `self.mkdir(str(dest))` -/
  | mkdirAct (dst : String)
  /-- `self.exec(f"uos.utime({str(dest)!r},(0,{mtime - RemotePath.epoch_offset}))")` -/
  | utimeAct (dst : String) (t : Int)
deriving DecidableEq, Repr

/-- `Board.check_remote_is_up_to_date(local, remote, opts)`: returns `-1`
(skip) when `"s" in opts` and the remote exists and either the mtimes are
equal with equal sizes (or the local path is a directory), or `"u" in opts`
and the local mtime is strictly older; otherwise returns the local mtime. -/
def check_remote_is_up_to_date (loc : LocalPath) (remote : RemotePath)
    (opts : List Char) : Int :=
  let size := loc.size
  let mtime := loc.mtime
  if opts.contains 's' && remote.exists
      && ((mtime == remote.mtime && (loc.is_dir || size == remote.size))
        || (opts.contains 'u' && decide (mtime < remote.mtime))) then
    -1
  else
    mtime

/-- `Board.put_file(filename, dest, opts)`: raises on dir→file or file→dir,
then (when any of `"t"`, `"s"`, `"u"` is in `opts`) consults
`check_remote_is_up_to_date` and returns early when it yields a negative
mtime; the `"v"` print is not device-mutating and `"n"` (dry run) returns
before any device call; otherwise issues one `fs_put` for a file source (or
one `mkdir` for a directory whose destination does not exist) and, with
`"t"` and a board-side `utime`, one `uos.utime` exec. -/
def put_file (board_has_utime : Bool) (epoch_offset : Int)
    (filename : LocalPath) (dest : RemotePath) (opts : List Char) :
    Except String (List PutAct) :=
  if filename.is_dir && dest.is_file then
    Except.error "Can not copy local dir to remote file"
  else if filename.is_file && dest.is_dir then
    Except.error "Can not copy local file to remote dir"
  else
    let use_check : Bool :=
      opts.contains 't' || opts.contains 's' || opts.contains 'u'
    let mtime : Int :=
      if use_check then check_remote_is_up_to_date filename dest opts else 0
    if use_check && decide (mtime < 0) then
      Except.ok []
    else if opts.contains 'n' then
      Except.ok []
    else
      Except.ok
        ((if filename.is_file then
            [PutAct.fsPut filename.name (path_str dest.comps)]
          else if !dest.exists then
            [PutAct.mkdirAct (path_str dest.comps)]
          else [])
          ++ (if opts.contains 't' && board_has_utime then
              [PutAct.utimeAct (path_str dest.comps) (mtime - epoch_offset)]
            else []))

/-- C5 (amended): under the `skipUnchanged` option `"s"` alone, a put of one
file (source a local file, destination an existing remote file, local mtime
non-negative) skips the write exactly when the destination size equals the
source size and the destination mtime (already converted through the epoch
offset by `set_modes`) is *equal* to the source mtime; in every other case -
including a strictly newer destination mtime - exactly one write call is
performed. -/
theorem C5_amended_skip_unchanged (bu : Bool) (eo : Int)
    (loc : LocalPath) (dest : RemotePath)
    (hlf : loc.is_file = true) (hld : loc.is_dir = false)
    (hdf : dest.is_file = true) (hdd : dest.is_dir = false)
    (hde : dest.exists = true) (hm : 0 ≤ loc.mtime) :
    (put_file bu eo loc dest ['s'] = Except.ok []
      ↔ (loc.size = dest.size ∧ loc.mtime = dest.mtime))
    ∧ ((loc.size ≠ dest.size ∨ loc.mtime ≠ dest.mtime) →
        put_file bu eo loc dest ['s']
          = Except.ok [PutAct.fsPut loc.name (path_str dest.comps)]) := by
  have hc : List.contains ['s'] 's' = true := by decide
  have hct : List.contains ['s'] 't' = false := by decide
  have hcu : List.contains ['s'] 'u' = false := by decide
  have hcn : List.contains ['s'] 'n' = false := by decide
  by_cases hsz : loc.size = dest.size <;> by_cases hmt : loc.mtime = dest.mtime <;>
    simp [put_file, check_remote_is_up_to_date, hlf, hld, hdf, hdd, hde,
      hc, hct, hcu, hcn, hsz, hmt] <;>
    omega

/-- C5 counterexample: a local file of size 10 and mtime 100 against a
remote copy of equal size whose (converted) mtime 101 is strictly *newer*.
The claim ("skip exactly when sizes are equal and the destination mtime is
not older") requires the write to be skipped, but `put_file` with `"s"`
performs the write, because the code skips only on mtime *equality* (the
strictly-newer case is skipped only under the extra `"u"` option). -/
theorem C5_counterexample :
    put_file false 0
        { name := "a.py", size := 10, mtime := 100, is_dir := false, is_file := true }
        (RemotePath.set_modes 0 (RemotePath.init ["a.py"]) [0x8000, 10, 101]) ['s']
      = Except.ok [PutAct.fsPut "a.py" "/a.py"]
    ∧ (RemotePath.set_modes 0 (RemotePath.init ["a.py"]) [0x8000, 10, 101]).size = 10
    ∧ (100 : Int) ≤
        (RemotePath.set_modes 0 (RemotePath.init ["a.py"]) [0x8000, 10, 101]).mtime :=
  ⟨rfl, rfl, by decide⟩

/-- Witness for C5 (amended) at a concrete matching file (skip case). -/
theorem C5_witness :
    (put_file false 0
        { name := "a.py", size := 10, mtime := 100, is_dir := false, is_file := true }
        (RemotePath.set_modes 0 (RemotePath.init ["a.py"]) [0x8000, 10, 100]) ['s']
        = Except.ok []
      ↔ ((10 : Int) = (RemotePath.set_modes 0 (RemotePath.init ["a.py"])
            [0x8000, 10, 100]).size
        ∧ (100 : Int) = (RemotePath.set_modes 0 (RemotePath.init ["a.py"])
            [0x8000, 10, 100]).mtime))
    ∧ (((10 : Int) ≠ (RemotePath.set_modes 0 (RemotePath.init ["a.py"])
            [0x8000, 10, 100]).size
        ∨ (100 : Int) ≠ (RemotePath.set_modes 0 (RemotePath.init ["a.py"])
            [0x8000, 10, 100]).mtime) →
        put_file false 0
          { name := "a.py", size := 10, mtime := 100, is_dir := false, is_file := true }
          (RemotePath.set_modes 0 (RemotePath.init ["a.py"]) [0x8000, 10, 100]) ['s']
          = Except.ok [PutAct.fsPut "a.py"
              (path_str (RemotePath.set_modes 0 (RemotePath.init ["a.py"])
                [0x8000, 10, 100]).comps)]) :=
  C5_amended_skip_unchanged false 0
    { name := "a.py", size := 10, mtime := 100, is_dir := false, is_file := true }
    (RemotePath.set_modes 0 (RemotePath.init ["a.py"]) [0x8000, 10, 100])
    rfl rfl (by decide) (by decide) rfl (by decide)

end MprThing

namespace MprThing

/-! ## The device-side remove helper
(src/src/mpr_thing/board/cmd_helper.py, `_MagicHelper.rm`)

The device filesystem is an oracle `DevFs`: `stat_mode f` is
`uos.stat(f)[0]` (`none` = `OSError`), `ilistdir f` the entry names of
`uos.ilistdir(f)`.  Every print and every `uos.remove` / `uos.rmdir` call
is recorded as an `RmAct` in order.  `helper_rm` is `_MagicHelper.rm`: for
each path in the list, a failed stat prints `No such file` and executes
`break` (ending the loop); a plain file is removed; a directory is, with
the `"r"` option, first recursed into (all of its children are processed)
and only then removed with `uos.rmdir`.  The `fuel` argument is an
embedding device bounding the total number of processing steps (Python's
bound is the interpreter recursion limit); `none` means the bound was
exhausted and no theorem below relies on that case.
-/

/-- `_MagicHelper.path(a, b)`. -/
def helper_path (a b : String) : String :=
  a ++ (if a ≠ "" && a ≠ "/" then "/" else "") ++ b

/-- `_MagicHelper.is_dir(mode)`. -/
def helper_is_dir (m : Int) : Bool := Int.land m 0x4000 ≠ 0

structure DevFs where
  stat_mode : String → Option Int
  ilistdir : String → List String

inductive RmAct where
  | printNoSuchFile (f : String)
  | printFile (f : String)
  | removeFile (f : String)
  | rmdirDir (f : String)
  | printCantRemove (f : String)
deriving DecidableEq, Repr

def helper_rm (fs : DevFs) (opts : List Char) :
    Nat → List String → Option (List RmAct)
  | _, [] => some []
  | 0, _ :: _ => none
  | fuel + 1, f :: rest =>
    match fs.stat_mode f with
    | none => some [RmAct.printNoSuchFile f]
    | some m =>
      if helper_is_dir m then
        if opts.contains 'r' then
          match helper_rm fs opts fuel ((fs.ilistdir f).map (helper_path f)) with
          | none => none
          | some sub =>
            match helper_rm fs opts fuel rest with
            | none => none
            | some tr =>
              some (sub
                ++ (if opts.contains 'v' then [RmAct.printFile f] else [])
                ++ (if !opts.contains 'n' then [RmAct.rmdirDir f] else [])
                ++ tr)
        else
          match helper_rm fs opts fuel rest with
          | none => none
          | some tr => some (RmAct.printCantRemove f :: tr)
      else
        match helper_rm fs opts fuel rest with
        | none => none
        | some tr =>
          some ((if opts.contains 'v' then [RmAct.printFile f] else [])
            ++ (if !opts.contains 'n' then [RmAct.removeFile f] else [])
            ++ tr)

def fs_ex : DevFs :=
  { stat_mode := fun f =>
      if f = "/b" then some 0x8000
      else if f = "/d" then some 0x4000
      else if f = "/d/x" then some 0x8000
      else if f = "/d/y" then some 0x8000
      else none
    ilistdir := fun f => if f = "/d" then ["x", "y"] else [] }

/-- C7 (amended): recursive remove deletes the children of a directory
strictly before removing the directory itself (bottom-up): the trace for a
directory is the whole child trace followed by `uos.rmdir` of the
directory.  A failed stat on one path is reported with `No such file` and
raises no error, but it terminates the processing of the remaining
requested paths of that invocation (they are skipped), because the loop
executes `break`. -/
theorem C7_amended_rm (fs : DevFs) (opts : List Char) (fuel : Nat)
    (f : String) (rest : List String) (m : Int) (sub : List RmAct) :
    (fs.stat_mode f = none →
      helper_rm fs opts (fuel + 1) (f :: rest) = some [RmAct.printNoSuchFile f])
    ∧ (fs.stat_mode f = some m → helper_is_dir m = true →
        'r' ∈ opts → 'n' ∉ opts →
        helper_rm fs opts fuel ((fs.ilistdir f).map (helper_path f)) = some sub →
        helper_rm fs opts (fuel + 1) [f]
          = some (sub ++ (if 'v' ∈ opts then [RmAct.printFile f] else [])
              ++ [RmAct.rmdirDir f])) := by
  constructor
  · intro hstat
    simp [helper_rm, hstat]
  · intro hstat hdir hr hn hsub
    simp [helper_rm, hstat, hdir, hr, hn, hsub]

/-- C7 counterexample: `rm(["/a", "/b"], "r")` where `/a` does not exist
and `/b` is an existing regular file produces only the `No such file`
report: `/b` - one of the remaining requested paths - is never processed,
refuting "the remaining requested paths are still processed". -/
theorem C7_counterexample :
    helper_rm fs_ex ['r'] 5 ["/a", "/b"] = some [RmAct.printNoSuchFile "/a"]
    ∧ fs_ex.stat_mode "/a" = none
    ∧ fs_ex.stat_mode "/b" = some 0x8000
    ∧ RmAct.removeFile "/b" ∉ [RmAct.printNoSuchFile "/a"] := by
  refine ⟨rfl, rfl, rfl, ?_⟩
  simp

/-- Witness for C7 (amended): the failed-stat report on `["/a"]` and the
bottom-up trace `remove /d/x, remove /d/y, rmdir /d` on `["/d"]`. -/
theorem C7_witness :
    helper_rm fs_ex ['r'] 5 ["/a"] = some [RmAct.printNoSuchFile "/a"]
    ∧ helper_rm fs_ex ['r'] 5 ["/d"]
        = some ([RmAct.removeFile "/d/x", RmAct.removeFile "/d/y"]
            ++ (if 'v' ∈ (['r'] : List Char) then [RmAct.printFile "/d"] else [])
            ++ [RmAct.rmdirDir "/d"]) :=
  ⟨(C7_amended_rm fs_ex ['r'] 4 "/a" [] 0 []).1 rfl,
   (C7_amended_rm fs_ex ['r'] 4 "/d" [] 0x4000
      [RmAct.removeFile "/d/x", RmAct.removeFile "/d/y"]).2 rfl rfl
      (by decide) (by decide) rfl⟩

end MprThing

namespace MprThing

/-! ## The cursor-position console query
(src/src/mpr_thing/mpr_thing.py, `query_console` and `cursor_column`)

`cursor_column` emits the ANSI report-cursor-position query and then, for
up to 50 loop iterations, reads one console byte at a time, appending it to
`response` and attempting `re.match(r"^\x1b\[(\d+);(\d+)R",
response.decode())`, returning `int(match.groups()[1])` on the first match
and `-1` when the loop ends without one.

The embedding takes as input the list of bytes the successive `readchar`
calls deliver (an iteration whose read returns nothing is simply a shorter
delivered list).  `matchReport` is the anchored regular-expression match,
returning the column group; `natOfDigits` is `int()` on a digit string.
Because `response.decode()` is attempted after *every* single byte, the
accumulated bytes are valid UTF-8 at some step of the loop exactly while
all bytes so far are ASCII: the first byte `≥ 0x80` (whether a stray
continuation byte or a still-incomplete lead byte) makes the partial
`response` undecodable at the iteration where it is appended, raising
`UnicodeDecodeError`; `Except.error ()` embeds that raise.
-/

def natOfDigits (ds : List Char) : Nat :=
  ds.foldl (fun n c => 10 * n + (c.toNat - 48)) 0

def matchReport (cs : List Char) : Option Nat :=
  match cs with
  | '\x1b' :: '[' :: rest =>
    let row := rest.takeWhile Char.isDigit
    let rest1 := rest.dropWhile Char.isDigit
    if row = [] then none
    else
      match rest1 with
      | ';' :: rest2 =>
        let col := rest2.takeWhile Char.isDigit
        let rest3 := rest2.dropWhile Char.isDigit
        if col = [] then none
        else
          match rest3 with
          | 'R' :: _ => some (natOfDigits col)
          | _ => none
      | _ => none
  | _ => none

def query_console_loop : Nat → List Char → List Nat → Except Unit (Option Nat)
  | 0, _, _ => Except.ok none
  | _ + 1, _, [] => Except.ok none
  | n + 1, resp, b :: rest =>
    if 128 ≤ b then Except.error ()
    else
      let resp2 := resp ++ [Char.ofNat b]
      match matchReport resp2 with
      | some col => Except.ok (some col)
      | none => query_console_loop n resp2 rest

def cursor_column (input : List Nat) : Except Unit Int :=
  match query_console_loop 50 [] input with
  | Except.error () => Except.error ()
  | Except.ok (some col) => Except.ok (col : Int)
  | Except.ok none => Except.ok (-1)


theorem loop_no_error (fuel : Nat) (input : List Nat) (resp : List Char)
    (h : ∀ b ∈ input, b < 128) :
    ∃ r, query_console_loop fuel resp input = Except.ok r := by
  induction fuel generalizing resp input with
  | zero => exact ⟨none, rfl⟩
  | succ n ih =>
    match input with
    | [] => exact ⟨none, rfl⟩
    | b :: rest =>
      have hb : b < 128 := h b (List.mem_cons_self b rest)
      have hrest : ∀ x ∈ rest, x < 128 := fun x hx => h x (List.mem_cons_of_mem b hx)
      rw [query_console_loop]
      rw [if_neg (by omega)]
      cases hm : matchReport (resp ++ [Char.ofNat b]) with
      | some col => exact ⟨some col, by simp [hm]⟩
      | none =>
        obtain ⟨r, hr⟩ := ih rest (resp ++ [Char.ofNat b]) hrest
        exact ⟨r, by simp [hm, hr]⟩

theorem loop_ok_none (fuel : Nat) (input : List Nat) (resp : List Char)
    (h : ∀ b ∈ input, b < 128)
    (hnone : ∀ k, k ≤ min fuel input.length →
      matchReport (resp ++ (input.take k).map Char.ofNat) = none) :
    query_console_loop fuel resp input = Except.ok none := by
  induction fuel generalizing resp input with
  | zero => rfl
  | succ n ih =>
    match input with
    | [] => rfl
    | b :: rest =>
      have hb : b < 128 := h b (List.mem_cons_self b rest)
      have hrest : ∀ x ∈ rest, x < 128 := fun x hx => h x (List.mem_cons_of_mem b hx)
      rw [query_console_loop]
      rw [if_neg (by omega)]
      have h1 : matchReport (resp ++ [Char.ofNat b]) = none := by
        have := hnone 1 (by simp)
        simpa using this
      simp only [h1]
      apply ih rest (resp ++ [Char.ofNat b]) hrest
      intro k hk
      have := hnone (k + 1) (by simp at hk ⊢; omega)
      simpa [List.append_assoc] using this

theorem loop_ok_some (fuel : Nat) (input : List Nat) (resp : List Char)
    (col : Nat)
    (hsome : query_console_loop fuel resp input = Except.ok (some col)) :
    ∃ k, 1 ≤ k ∧ k ≤ min fuel input.length
      ∧ matchReport (resp ++ (input.take k).map Char.ofNat) = some col := by
  induction fuel generalizing resp input with
  | zero => simp [query_console_loop] at hsome
  | succ n ih =>
    match input with
    | [] => simp [query_console_loop] at hsome
    | b :: rest =>
      rw [query_console_loop] at hsome
      by_cases hb : 128 ≤ b
      · rw [if_pos hb] at hsome
        exact absurd hsome (by simp)
      · rw [if_neg hb] at hsome
        cases hm : matchReport (resp ++ [Char.ofNat b]) with
        | some c =>
          simp only [hm] at hsome
          have hc : c = col := by
            simpa using hsome
          refine ⟨1, le_refl 1, by simp, ?_⟩
          simpa [hc] using hm
        | none =>
          simp only [hm] at hsome
          obtain ⟨k, hk1, hk2, hk3⟩ := ih rest (resp ++ [Char.ofNat b]) hsome
          refine ⟨k + 1, by omega, by simp at hk2 ⊢; omega, ?_⟩
          simpa [List.append_assoc] using hk3

/-- C9 counterexample: the single console-input byte `0xFF` makes
`response.decode()` raise `UnicodeDecodeError`, so `cursor_column` raises
instead of returning an integer, refuting "for every sequence of
console-input bytes ... returns an integer without raising". -/
theorem C9_counterexample :
    cursor_column [255] = Except.error () := by rfl

/-- C9 (amended): for every sequence of console-input bytes that keeps the
accumulated response decodable (in particular any ASCII terminal report),
`cursor_column` returns an integer without raising; it returns `-1` when no
prefix of the (at most 50) consumed bytes matches the terminal report
pattern `ESC [ row ; col R` (timeout or parse failure), and whenever it
returns a non-negative column, that column is the one parsed from the
matching report prefix. -/
theorem C9_amended_cursor_column (input : List Nat)
    (h : ∀ b ∈ input, b < 128) :
    (∃ n : Int, cursor_column input = Except.ok n)
    ∧ ((∀ k, k ≤ min 50 input.length →
          matchReport ((input.take k).map Char.ofNat) = none) →
        cursor_column input = Except.ok (-1))
    ∧ (∀ col : Nat, cursor_column input = Except.ok (col : Int) →
        ∃ k, 1 ≤ k ∧ k ≤ min 50 input.length
          ∧ matchReport ((input.take k).map Char.ofNat) = some col) := by
  refine ⟨?_, ?_, ?_⟩
  · obtain ⟨r, hr⟩ := loop_no_error 50 input [] h
    cases r with
    | some col => exact ⟨(col : Int), by simp [cursor_column, hr]⟩
    | none => exact ⟨-1, by simp [cursor_column, hr]⟩
  · intro hnone
    have hloop : query_console_loop 50 [] input = Except.ok none := by
      apply loop_ok_none 50 input [] h
      intro k hk
      simpa using hnone k hk
    simp [cursor_column, hloop]
  · intro col hcol
    cases hloop : query_console_loop 50 [] input with
    | error e => simp [cursor_column, hloop] at hcol
    | ok r =>
      cases r with
      | none =>
        rw [cursor_column, hloop] at hcol
        simp at hcol
      | some c =>
        rw [cursor_column, hloop] at hcol
        simp at hcol
        obtain ⟨k, hk1, hk2, hk3⟩ := loop_ok_some 50 input [] c hloop
        subst hcol
        exact ⟨k, hk1, hk2, by simpa using hk3⟩

/-- Witness for C9 (amended) at the concrete report `ESC[12;34R`. -/
theorem C9_witness :
    (∃ n : Int, cursor_column [27, 91, 49, 50, 59, 51, 52, 82] = Except.ok n)
    ∧ ((∀ k, k ≤ min 50 (List.length [27, 91, 49, 50, 59, 51, 52, 82]) →
          matchReport ((List.take k [27, 91, 49, 50, 59, 51, 52, 82]).map Char.ofNat)
            = none) →
        cursor_column [27, 91, 49, 50, 59, 51, 52, 82] = Except.ok (-1))
    ∧ (∀ col : Nat,
        cursor_column [27, 91, 49, 50, 59, 51, 52, 82] = Except.ok (col : Int) →
        ∃ k, 1 ≤ k ∧ k ≤ min 50 (List.length [27, 91, 49, 50, 59, 51, 52, 82])
          ∧ matchReport ((List.take k [27, 91, 49, 50, 59, 51, 52, 82]).map Char.ofNat)
            = some col) :=
  C9_amended_cursor_column [27, 91, 49, 50, 59, 51, 52, 82] (by decide)

end MprThing

namespace MprThing

/-! ## Host-side pre-flight validation and copy/move dispatch
(src/src/mpr_thing/board.py, `Board.ls_files`, `Board.check_files`,
`Board.cp`, `Board.mv`; src/src/mpr_thing/board/cmd_helper.py,
`_MagicHelper.ls_files`)

The device-side `_MagicHelper.ls_files` prints one entry per path:
`["<name>",[mode,size,mtime]]` when `uos.stat` succeeds, and the literal
`["f",[]]` when it raises `OSError` (the format string
`'{}["f",[]]'.format(sep)` does not interpolate the filename).  The
comment above `Board.ls_files` documents a *flat* entry shape
`["f1", s0, s1, s2]`, and the code applies
`RemotePath(f[0]).set_modes(f[1:])` accordingly - but on the actual
nested entries `f[1:]` is the one-element list `[statlist]`, so
`set_modes` receives a nonempty sequence whose head is itself a list:
every constructed entry has `_exists = True` (missing files included), a
*list*-valued `mode`, and `size = mtime = -1`.  Python's dynamic typing
defers the failure to the first `mode & 0x4000` inside `is_dir()`, which
raises `TypeError: unsupported operand type(s) for &`.

The embedding keeps that dynamic typing visible: `PyVal` is the value
stored in the stat fields (an int or a list), raising is
`Except.error "TypeError"`, and `set_modes_dyn` / `is_dir_dyn` /
`is_file_dyn` are `RemotePath.set_modes` / `is_dir` / `is_file`
(remote_path.py) evaluated at those values, with Python's short-circuit
`and` preserved.  `StatStr` is the device stat oracle keyed by the raw
path string; `helper_ls_files` is the device side, `board_ls_files` the
host-side construction.  The comprehension and loop helpers keep the
source's evaluation order: `check_files` builds `missing` (board.py:251)
and then `dirs` (board.py:252) - the comprehension whose `is_dir()`
raises - *before* any of its `if` checks, so the rejection branches
(`Missing files`, `is subfolder of`, `source is same as dest`,
`Can not process dirs`) are unreachable whenever there is at least one
source.  Device paths are canonical absolute posix strings, so
`f in dest_f.parents` is the proper-prefix test on components
(`is_in_parents_str`) and `dest_f / f.name` appends the basename.
-/

/-- A Python value reaching the duck-typed stat fields of `RemotePath`:
an `int`, or (through the entry-shape mismatch) a `list` of ints. -/
inductive PyVal where
  | pint (n : Int)
  | plist (xs : List Int)
deriving DecidableEq, Repr

/-- `RemotePath` as actually populated by `Board.ls_files` in the frozen
source: the constructor string, the three stat fields as dynamic values,
and `_exists`. -/
structure RemotePathDyn where
  name_str : String
  mode : PyVal
  size : PyVal
  mtime : PyVal
  _exists : Bool
deriving DecidableEq, Repr

/-- `RemotePath.__init__`. -/
def RemotePathDyn.init (name : String) : RemotePathDyn :=
  { name_str := name, mode := PyVal.pint 0, size := PyVal.pint 0,
    mtime := PyVal.pint 0, _exists := false }

/-- Python `x + e` for an int `e`: adds for an int, raises `TypeError`
for a list. -/
def pyAdd : PyVal → Int → Except String PyVal
  | PyVal.pint n, e => Except.ok (PyVal.pint (n + e))
  | PyVal.plist _, _ => Except.error "TypeError"

/-- Python `x & m` for an int `m`: bitwise-and for an int, raises
`TypeError: unsupported operand type(s) for &` for a list. -/
def pyAnd : PyVal → Int → Except String Int
  | PyVal.pint n, m => Except.ok (Int.land n m)
  | PyVal.plist _, _ => Except.error "TypeError"

/-- `RemotePath.set_modes(stat)` over dynamic values:
`mode = stat[0] if stat else 0`, `size = stat[1] if stat[1:] else -1`,
`mtime = stat[2] + epoch_offset if stat[2:] else -1` (the `+` can raise),
`_exists = bool(stat)`. -/
def set_modes_dyn (epoch_offset : Int) (p : RemotePathDyn) (stat : List PyVal) :
    Except String RemotePathDyn :=
  let md := match stat with | [] => PyVal.pint 0 | m :: _ => m
  let sz := match stat with | _ :: s :: _ => s | _ => PyVal.pint (-1)
  let ex := decide (stat ≠ [])
  match stat with
  | _ :: _ :: t :: _ =>
    match pyAdd t epoch_offset with
    | Except.error e => Except.error e
    | Except.ok mt =>
      Except.ok { p with mode := md, size := sz, mtime := mt, _exists := ex }
  | _ =>
    Except.ok { p with mode := md, size := sz, mtime := PyVal.pint (-1), _exists := ex }

/-- `RemotePath.is_dir()`: `_exists and ((mode & S_IFDIR) != 0)`, with
Python's short-circuit (`mode & ...` not evaluated when `_exists` is
false) and the `TypeError` raised when `mode` is a list. -/
def is_dir_dyn (p : RemotePathDyn) : Except String Bool :=
  if !p._exists then Except.ok false
  else
    match pyAnd p.mode S_IFDIR with
    | Except.error e => Except.error e
    | Except.ok n => Except.ok (decide (n ≠ 0))

/-- `RemotePath.is_file()`: `_exists and ((mode & S_IFREG) != 0)`. -/
def is_file_dyn (p : RemotePathDyn) : Except String Bool :=
  if !p._exists then Except.ok false
  else
    match pyAnd p.mode S_IFREG with
    | Except.error e => Except.error e
    | Except.ok n => Except.ok (decide (n ≠ 0))

/-- The device stat oracle behind `uos.stat` in `_MagicHelper.ls_files`:
`none` embeds a raised `OSError` (missing file). -/
def StatStr : Type := String → Option (Int × Int × Int)

/-- `_MagicHelper.ls_files(files)` device side, parsed: one entry
`(name, [mode, size, mtime])` per existing path and `("f", [])` for a
missing one - the literal string `"f"`, as printed by the
non-interpolating format string. -/
def helper_ls_files (sm : StatStr) (files : List String) :
    List (String × List Int) :=
  files.map fun f =>
    match sm f with
    | some (m, s, t) => (f, [m, s, t])
    | none => ("f", [])

/-- The host-side generator of `Board.ls_files`:
`RemotePath(f[0]).set_modes(f[1:])` for each parsed entry
`[name, statlist]`.  Since the entries are nested, `f[1:]` is the
one-element list `[statlist]`. -/
def ls_files_construct (epoch_offset : Int) :
    List (String × List Int) → Except String (List RemotePathDyn)
  | [] => Except.ok []
  | entry :: rest =>
    match set_modes_dyn epoch_offset (RemotePathDyn.init entry.1)
        [PyVal.plist entry.2] with
    | Except.error e => Except.error e
    | Except.ok p =>
      match ls_files_construct epoch_offset rest with
      | Except.error e => Except.error e
      | Except.ok ps => Except.ok (p :: ps)

/-- `Board.ls_files(filenames)` as composed in the frozen source. -/
def board_ls_files (sm : StatStr) (epoch_offset : Int) (files : List String) :
    Except String (List RemotePathDyn) :=
  ls_files_construct epoch_offset (helper_ls_files sm files)

/-- The entry `Board.ls_files` actually constructs for one path:
`_exists = True` in both cases, `mode` the nested stat list (or `[]` for
a missing file, under the name `"f"`), `size = mtime = -1`. -/
def dyn_entry (sm : StatStr) (f : String) : RemotePathDyn :=
  match sm f with
  | some (m, s, t) =>
    { name_str := f, mode := PyVal.plist [m, s, t], size := PyVal.pint (-1),
      mtime := PyVal.pint (-1), _exists := true }
  | none =>
    { name_str := "f", mode := PyVal.plist [], size := PyVal.pint (-1),
      mtime := PyVal.pint (-1), _exists := true }

/-- `set_modes` on the one-element `[statlist]` argument: `_exists`
becomes `True`, `mode` the list, `size = mtime = -1`. -/
theorem set_modes_dyn_single (eo : Int) (p : RemotePathDyn) (xs : List Int) :
    set_modes_dyn eo p [PyVal.plist xs]
      = Except.ok
          { p with
            mode := PyVal.plist xs
            size := PyVal.pint (-1)
            mtime := PyVal.pint (-1)
            _exists := true } := rfl

/-- `Board.ls_files` never raises by itself and returns exactly the
`dyn_entry` for each requested path. -/
theorem board_ls_files_eq (sm : StatStr) (eo : Int) (files : List String) :
    board_ls_files sm eo files = Except.ok (files.map (dyn_entry sm)) := by
  induction files with
  | nil => rfl
  | cons f fs ih =>
    rw [board_ls_files, helper_ls_files] at ih ⊢
    cases hsm : sm f with
    | none =>
      simp only [List.map_cons, dyn_entry, hsm, ls_files_construct, set_modes_dyn_single, ih]
      rfl
    | some tr =>
      obtain ⟨m, s, t⟩ := tr
      simp only [List.map_cons, dyn_entry, hsm, ls_files_construct, set_modes_dyn_single, ih]
      rfl

/-- Components of a canonical absolute posix path string. -/
def str_comps (s : String) : List String :=
  (s.splitOn "/").filter (fun c => c ≠ "")

/-- `f in dest.parents` for canonical absolute `PurePosixPath`s: the
components of `f` are a proper prefix of the components of `dest`. -/
def is_in_parents_str (f d : String) : Bool :=
  decide (str_comps f <+: str_comps d) && !(str_comps f == str_comps d)

/-- `PurePosixPath(s).name` for a canonical path string. -/
def posix_name (s : String) : String :=
  (str_comps s).getLastD ""

/-- Device-mutating calls issued by `Board.cp` and `Board.mv`
(`_helper.cp_file`, `_helper.cp_dir`, the batched `_helper.cp`, and
`uos.rename`). -/
inductive CpAct where
  | cpFile (src dst : String)
  | cpDir (src dst : String)
  | cpMulti (files dirs : List String) (dst : String)
  | rename (src dst : String)
deriving DecidableEq, Repr

/-- `[str(d) + "/" for d in filelist if d.is_dir()]` - the comprehension
at board.py:252 (and board.py:308); `is_dir()` can raise. -/
def dirs_comprehension : List RemotePathDyn → Except String (List String)
  | [] => Except.ok []
  | p :: ps =>
    match is_dir_dyn p with
    | Except.error e => Except.error e
    | Except.ok b =>
      match dirs_comprehension ps with
      | Except.error e => Except.error e
      | Except.ok l => Except.ok (if b then (p.name_str ++ "/") :: l else l)

/-- `[str(f) for f in filelist if f.is_file()]` (board.py:307). -/
def files_comprehension : List RemotePathDyn → Except String (List String)
  | [] => Except.ok []
  | p :: ps =>
    match is_file_dyn p with
    | Except.error e => Except.error e
    | Except.ok b =>
      match files_comprehension ps with
      | Except.error e => Except.error e
      | Except.ok l => Except.ok (if b then p.name_str :: l else l)

/-- The destination checks of `check_files` (board.py:259-265): for each
source, `f.is_dir() and f in dest_f.parents`, then `str(f) == dest`;
returns whether a rejection fired. -/
def dest_loop (df : RemotePathDyn) (dest : String) :
    List RemotePathDyn → Except String Bool
  | [] => Except.ok false
  | f :: fs =>
    match is_dir_dyn f with
    | Except.error e => Except.error e
    | Except.ok fd =>
      if fd && is_in_parents_str f.name_str df.name_str then Except.ok true
      else if f.name_str == dest then Except.ok true
      else dest_loop df dest fs

/-- `Board.check_files(cmd, filenames, dest, opts)` over the entries the
frozen source really builds: stats sources (and destination when the
`dest` string is non-empty, which is then popped off), computes
`missing` and `dirs`, then runs the rejection checks. -/
def check_files_dyn (cmd : String) (sm : StatStr) (epoch_offset : Int)
    (filenames : List String) (dest : String) (opts : List Char) :
    Except String (List RemotePathDyn × Option RemotePathDyn) :=
  match board_ls_files sm epoch_offset
      (if dest ≠ "" then filenames ++ [dest] else filenames) with
  | Except.error e => Except.error e
  | Except.ok filelist0 =>
    let filelist := if dest ≠ "" then filelist0.dropLast else filelist0
    let dest_f := if dest ≠ "" then filelist0.getLast? else none
    let missing := (filelist.filter (fun f => !f._exists)).map
      (fun f => f.name_str)
    match dirs_comprehension filelist with
    | Except.error e => Except.error e
    | Except.ok dirs =>
      if missing ≠ [] then Except.ok ([], none)
      else
        match (match dest_f with
          | some df => dest_loop df dest filelist
          | none => Except.ok false) with
        | Except.error e => Except.error e
        | Except.ok conflict =>
          if conflict then Except.ok ([], none)
          else if dirs ≠ []
              && (cmd = "rm" || cmd = "cp" || cmd = "get" || cmd = "put")
              && !opts.contains 'r' then Except.ok ([], none)
          else Except.ok (filelist, dest_f)

/-- `Board.cp(filenames, dest, opts)`: validation, then the single-source
special cases, then the directory-destination check and the batched
`_helper.cp` call. -/
def cp_dyn (sm : StatStr) (epoch_offset : Int) (filenames : List String)
    (dest : String) (opts : List Char) : Except String (List CpAct) :=
  match check_files_dyn "cp" sm epoch_offset filenames dest opts with
  | Except.error e => Except.error e
  | Except.ok (filelist, dest_f?) =>
    match dest_f? with
    | none => Except.ok []
    | some dest_f =>
      if filelist = [] then Except.ok []
      else
        match files_comprehension filelist with
        | Except.error e => Except.error e
        | Except.ok files =>
          match dirs_comprehension filelist with
          | Except.error e => Except.error e
          | Except.ok dirs =>
            let special : Except String (Option CpAct) :=
              if filelist.length = 1 then
                if files ≠ [] then
                  match is_file_dyn dest_f with
                  | Except.error e => Except.error e
                  | Except.ok dff =>
                    if dff || !dest_f._exists then
                      Except.ok (some (CpAct.cpFile (files.headD "")
                        dest_f.name_str))
                    else if dirs ≠ [] && !dest_f._exists then
                      Except.ok (some (CpAct.cpDir (dirs.headD "")
                        (dest_f.name_str ++ "/")))
                    else Except.ok none
                else if dirs ≠ [] && !dest_f._exists then
                  Except.ok (some (CpAct.cpDir (dirs.headD "")
                    (dest_f.name_str ++ "/")))
                else Except.ok none
              else Except.ok none
            match special with
            | Except.error e => Except.error e
            | Except.ok (some act) => Except.ok [act]
            | Except.ok none =>
              match is_dir_dyn dest_f with
              | Except.error e => Except.error e
              | Except.ok dd =>
                if !dd then Except.ok []
                else Except.ok [CpAct.cpMulti files dirs
                  (dest_f.name_str ++ "/")]

/-- `Board.mv(filenames, dest, opts)`: validation, then single-source
rename or per-source rename to `dest_f / f.name`; note Python's
short-circuit evaluates `dest_f.is_dir()` only when there is exactly one
source. -/
def mv_dyn (sm : StatStr) (epoch_offset : Int) (filenames : List String)
    (dest : String) (opts : List Char) : Except String (List CpAct) :=
  match check_files_dyn "mv" sm epoch_offset filenames dest opts with
  | Except.error e => Except.error e
  | Except.ok (filelist, dest_f?) =>
    match dest_f? with
    | none => Except.ok []
    | some dest_f =>
      if filelist = [] then Except.ok []
      else if filelist.length = 1 then
        match is_dir_dyn dest_f with
        | Except.error e => Except.error e
        | Except.ok dd =>
          if !dd then
            match filelist with
            | [] => Except.ok []
            | f :: _ =>
              if !dest_f._exists then
                Except.ok [CpAct.rename f.name_str dest]
              else
                match is_file_dyn f with
                | Except.error e => Except.error e
                | Except.ok ff =>
                  if ff then Except.ok [CpAct.rename f.name_str dest]
                  else Except.ok []
          else
            Except.ok (filelist.map (fun f =>
              CpAct.rename f.name_str
                (dest_f.name_str ++ "/" ++ posix_name f.name_str)))
      else
        Except.ok (filelist.map (fun f =>
          CpAct.rename f.name_str
            (dest_f.name_str ++ "/" ++ posix_name f.name_str)))

/-- Stat oracle for the concrete failing inputs: `/a.py` is a regular
file, everything else is missing. -/
def sm_ex : StatStr := fun f =>
  if f = "/a.py" then some (0x8000, 10, 100) else none

/-- The `dirs` comprehension raises `TypeError` on any nonempty entry
list, because every entry's `mode` is a list. -/
theorem dirs_comprehension_typeerror (sm : StatStr) (f : String)
    (l : List RemotePathDyn) :
    dirs_comprehension (dyn_entry sm f :: l) = Except.error "TypeError" := by
  cases hsm : sm f with
  | none => simp [dyn_entry, hsm, dirs_comprehension, is_dir_dyn, pyAnd]
  | some tr =>
    obtain ⟨m, s, t⟩ := tr
    simp [dyn_entry, hsm, dirs_comprehension, is_dir_dyn, pyAnd]

/-- `check_files` raises `TypeError` for every command, oracle, option
string and destination, whenever at least one source path is given. -/
theorem check_files_dyn_typeerror (cmd : String) (sm : StatStr) (eo : Int)
    (f1 : String) (rest : List String) (dest : String) (opts : List Char) :
    check_files_dyn cmd sm eo (f1 :: rest) dest opts
      = Except.error "TypeError" := by
  rw [check_files_dyn, board_ls_files_eq]
  by_cases hd : dest ≠ ""
  · simp only [if_pos hd]
    have h1 : (((f1 :: rest) ++ [dest]).map (dyn_entry sm)).dropLast
        = (f1 :: rest).map (dyn_entry sm) := by
      rw [List.map_append]
      simp only [List.map_cons, List.map_nil, ← List.cons_append]
      rw [List.dropLast_concat]
    simp only [h1, List.map_cons, dirs_comprehension_typeerror]
  · simp only [if_neg hd]
    simp only [List.map_cons, dirs_comprehension_typeerror]

/-- `Board.cp` propagates the `TypeError` before issuing any device call
or reaching its dispatch. -/
theorem cp_dyn_typeerror (sm : StatStr) (eo : Int) (f1 : String)
    (rest : List String) (dest : String) (opts : List Char) :
    cp_dyn sm eo (f1 :: rest) dest opts = Except.error "TypeError" := by
  rw [cp_dyn, check_files_dyn_typeerror]

/-- `Board.mv` propagates the `TypeError` before issuing any rename. -/
theorem mv_dyn_typeerror (sm : StatStr) (eo : Int) (f1 : String)
    (rest : List String) (dest : String) (opts : List Char) :
    mv_dyn sm eo (f1 :: rest) dest opts = Except.error "TypeError" := by
  rw [mv_dyn, check_files_dyn_typeerror]

/-- C4 (code bug): the claim matches `check_files`'s evident intent - its
four rejection branches and their error messages implement exactly the
claimed conditions, and the comment above `Board.ls_files` documents the
flat entry shape under which they work - but in the frozen source
`Board.ls_files` applies `set_modes(f[1:])` to the *nested*
`_helper.ls_files` entries, so every invocation of `check_files` with at
least one source (any command, oracle, destination, options) raises
`TypeError` at its first `is_dir()` call instead of returning
`([], None)`: missing sources are undetectable (`_exists` is always
true) and the graceful rejections are unreachable; `cp` propagates the
exception before any device-mutating call.  The concrete conjunct
evaluates the cited example `cp /a.py /a.py` (source equals
destination). -/
theorem C4_code_bug_typeerror (cmd : String) (sm : StatStr) (eo : Int)
    (f1 : String) (rest : List String) (dest : String) (opts : List Char) :
    (check_files_dyn cmd sm eo (f1 :: rest) dest opts
      = Except.error "TypeError"
    ∧ cp_dyn sm eo (f1 :: rest) dest opts = Except.error "TypeError")
    ∧ (check_files_dyn "cp" sm_ex 0 ["/a.py"] "/a.py" []
        = Except.error "TypeError"
      ∧ sm_ex "/a.py" = some (0x8000, 10, 100)) :=
  ⟨⟨check_files_dyn_typeerror cmd sm eo f1 rest dest opts,
    cp_dyn_typeerror sm eo f1 rest dest opts⟩,
   ⟨rfl, rfl⟩⟩

/-- C6 (code bug): the single-source rename/overwrite and the
place-inside-directory-by-basename dispatch of `Board.cp` / `Board.mv`
(the claim's content, and the evident intent of board.py:278-330) are
unreachable in the frozen source: both functions call `check_files`
first, which raises `TypeError` for every invocation with at least one
source because of the `ls_files` entry-shape mismatch, so no copy or
rename is ever issued.  The concrete conjunct evaluates
`cp /a.py /b.py` / `mv /a.py /b.py` with `/a.py` an existing file and
`/b.py` absent, where the claim requires a single rename/overwrite of
`/b.py`. -/
theorem C6_code_bug_typeerror (sm : StatStr) (eo : Int)
    (f1 : String) (rest : List String) (dest : String) (opts : List Char) :
    (cp_dyn sm eo (f1 :: rest) dest opts = Except.error "TypeError"
    ∧ mv_dyn sm eo (f1 :: rest) dest opts = Except.error "TypeError")
    ∧ (cp_dyn sm_ex 0 ["/a.py"] "/b.py" [] = Except.error "TypeError"
      ∧ mv_dyn sm_ex 0 ["/a.py"] "/b.py" [] = Except.error "TypeError"
      ∧ sm_ex "/b.py" = none) :=
  ⟨⟨cp_dyn_typeerror sm eo f1 rest dest opts,
    mv_dyn_typeerror sm eo f1 rest dest opts⟩,
   ⟨rfl, rfl, rfl⟩⟩

end MprThing

namespace MprThing

/-! ## The restricted literal grammar of device-helper responses
(src/src/mpr_thing/board.py, `Board.eval_json`)

`Board.eval_json` executes code on the board and interprets the textual
response with `json.loads(response.replace("'", '"'))` - "Safer to use json
to construct objects rather than eval()" per the source comment.

Modelled from the spec: `json.loads` is the Python standard library, not
part of this repository's sources.  Per spec §6, helper responses are
"literal textual forms only - integers, double-quoted strings with
`\"`-escaped embedded quotes, and nested groupings with comma separators";
the parser below (`parse_val` / `parse_items` / `parse_string_body`, with
`json_loads` requiring the whole input to be consumed up to trailing
whitespace) embeds that restricted literal grammar exactly: optionally
signed decimal integers, double-quoted strings with backslash escapes,
square-bracket groupings with comma separators, and whitespace.  It is a
pure total function into the value type `Lit`; interpreting a response
never evaluates anything in it.  `fuel` is a step bound (`length + 1`
always suffices, as `json_loads` supplies).

`ValText v pre` / `ItemsText vs pre` is the *grammar*: the inductive
rendering relation "the text `pre` is a well-formed literal denoting `v`",
built from exactly the productions above.  The soundness theorem shows the
parser accepts nothing outside this grammar.
-/

inductive Lit where
  | num (n : Int)
  | str (cs : List Char)
  | arr (vs : List Lit)

def is_ws_char (c : Char) : Bool :=
  c = ' ' || c = '\t' || c = '\n' || c = '\r'

def skip_ws (cs : List Char) : List Char := cs.dropWhile is_ws_char

def parse_string_body : Nat → List Char → Option (List Char × List Char)
  | 0, _ => none
  | _ + 1, [] => none
  | fuel + 1, c :: rest =>
    if c = '"' then some ([], rest)
    else if c = '\\' then
      match rest with
      | [] => none
      | e :: rest2 =>
        match parse_string_body fuel rest2 with
        | none => none
        | some (s, r) => some (e :: s, r)
    else
      match parse_string_body fuel rest with
      | none => none
      | some (s, r) => some (c :: s, r)

mutual

def parse_val : Nat → List Char → Option (Lit × List Char)
  | 0, _ => none
  | fuel + 1, cs0 =>
    match skip_ws cs0 with
    | [] => none
    | '"' :: rest =>
      match parse_string_body fuel rest with
      | none => none
      | some (content, r) => some (Lit.str content, r)
    | '[' :: rest =>
      match skip_ws rest with
      | ']' :: r2 => some (Lit.arr [], r2)
      | _ =>
        match parse_items fuel rest with
        | none => none
        | some (vs, r) => some (Lit.arr vs, r)
    | '-' :: rest =>
      if rest.takeWhile Char.isDigit = [] then none
      else some (Lit.num (-(natOfDigits (rest.takeWhile Char.isDigit) : Int)),
        rest.dropWhile Char.isDigit)
    | c :: rest =>
      if c.isDigit then
        some (Lit.num (natOfDigits ((c :: rest).takeWhile Char.isDigit) : Int),
          (c :: rest).dropWhile Char.isDigit)
      else none

def parse_items : Nat → List Char → Option (List Lit × List Char)
  | 0, _ => none
  | fuel + 1, cs =>
    match parse_val fuel cs with
    | none => none
    | some (v, rest) =>
      match skip_ws rest with
      | ',' :: r2 =>
        match parse_items fuel r2 with
        | none => none
        | some (vs, r3) => some (v :: vs, r3)
      | ']' :: r2 => some ([v], r2)
      | _ => none

end

def json_loads (cs : List Char) : Option Lit :=
  match parse_val (cs.length + 1) cs with
  | none => none
  | some (v, rest) => if skip_ws rest = [] then some v else none

def eval_json_of_text (response : List Char) : Option Lit :=
  json_loads (response.map (fun c => if c = '\'' then '"' else c))




def IsWs (ws : List Char) : Prop := ∀ c ∈ ws, is_ws_char c = true

inductive StrText : List Char → List Char → Prop where
  | close : StrText ['"'] []
  | chr (c : Char) (b cont : List Char) : c ≠ '"' → c ≠ '\\' → StrText b cont →
      StrText (c :: b) (c :: cont)
  | esc (e : Char) (b cont : List Char) : StrText b cont →
      StrText ('\\' :: e :: b) (e :: cont)

mutual

inductive ValText : Lit → List Char → Prop where
  | num (ws ds : List Char) (sign : Bool) :
      IsWs ws → ds ≠ [] → (∀ c ∈ ds, c.isDigit = true) →
      ValText
        (Lit.num (if sign then -(natOfDigits ds : Int) else (natOfDigits ds : Int)))
        (ws ++ (if sign then ['-'] else []) ++ ds)
  | str (ws b cont : List Char) : IsWs ws → StrText b cont →
      ValText (Lit.str cont) (ws ++ '"' :: b)
  | arrNil (ws ws2 : List Char) : IsWs ws → IsWs ws2 →
      ValText (Lit.arr []) (ws ++ '[' :: (ws2 ++ [']']))
  | arrCons (ws t : List Char) (vs : List Lit) : IsWs ws → ItemsText vs t →
      ValText (Lit.arr vs) (ws ++ '[' :: t)

inductive ItemsText : List Lit → List Char → Prop where
  | last (v : Lit) (tv ws : List Char) : ValText v tv → IsWs ws →
      ItemsText [v] (tv ++ ws ++ [']'])
  | cons (v : Lit) (vs : List Lit) (tv ws t : List Char) :
      ValText v tv → IsWs ws → ItemsText vs t →
      ItemsText (v :: vs) (tv ++ ws ++ ',' :: t)

end

theorem skip_ws_split (cs : List Char) :
    ∃ ws, IsWs ws ∧ cs = ws ++ skip_ws cs :=
  ⟨cs.takeWhile is_ws_char, fun _ hc => List.mem_takeWhile_imp hc,
    (List.takeWhile_append_dropWhile is_ws_char cs).symm⟩

/-- String-token soundness: an accepted string body is generated by
`StrText`. -/
theorem parse_string_body_sound (fuel : Nat) :
    ∀ cs content rest, parse_string_body fuel cs = some (content, rest) →
      ∃ b, cs = b ++ rest ∧ StrText b content := by
  induction fuel with
  | zero => intro cs content rest h; simp [parse_string_body] at h
  | succ n ih =>
    intro cs content rest h
    match cs with
    | [] => simp [parse_string_body] at h
    | c :: rest0 =>
      simp only [parse_string_body] at h
      by_cases hq : c = '"'
      · rw [if_pos hq] at h
        obtain ⟨rfl, rfl⟩ : content = [] ∧ rest0 = rest := by
          simpa using h
        subst hq
        exact ⟨['"'], rfl, StrText.close⟩
      · rw [if_neg hq] at h
        by_cases hb : c = '\\'
        · rw [if_pos hb] at h
          cases rest0 with
          | nil => simp at h
          | cons e rest2 =>
            dsimp only at h
            cases hrec : parse_string_body n rest2 with
            | none => rw [hrec] at h; simp at h
            | some pr =>
              obtain ⟨s, r⟩ := pr
              rw [hrec] at h
              obtain ⟨rfl, rfl⟩ : e :: s = content ∧ r = rest := by
                simpa using h
              obtain ⟨b, hb1, hb2⟩ := ih rest2 s r hrec
              subst hb
              exact ⟨'\\' :: e :: b, by simp [hb1], StrText.esc e b s hb2⟩
        · rw [if_neg hb] at h
          cases hrec : parse_string_body n rest0 with
          | none => rw [hrec] at h; simp at h
          | some pr =>
            obtain ⟨s, r⟩ := pr
            rw [hrec] at h
            obtain ⟨rfl, rfl⟩ : c :: s = content ∧ r = rest := by
              simpa using h
            obtain ⟨b, hb1, hb2⟩ := ih rest0 s r hrec
            exact ⟨c :: b, by simp [hb1], StrText.chr c b s hq hb hb2⟩

set_option maxHeartbeats 1000000

/-- Parser soundness: whatever `parse_val` (resp. `parse_items`) accepts
is consumed text generated by the restricted literal grammar. -/
theorem parse_sound (fuel : Nat) :
    (∀ cs v rest, parse_val fuel cs = some (v, rest) →
      ∃ pre, cs = pre ++ rest ∧ ValText v pre)
    ∧ (∀ cs vs rest, parse_items fuel cs = some (vs, rest) →
      ∃ pre, cs = pre ++ rest ∧ ItemsText vs pre) := by
  induction fuel with
  | zero =>
    constructor
    · intro cs v rest h
      simp [parse_val] at h
    · intro cs vs rest h
      simp [parse_items] at h
  | succ n ih =>
    obtain ⟨ihv, ihi⟩ := ih
    constructor
    · intro cs v rest h
      obtain ⟨ws, hws, hcs⟩ := skip_ws_split cs
      rw [parse_val] at h
      split at h
      · exact absurd h (by simp)
      · rename_i rest0 heq
        cases hrec : parse_string_body n rest0 with
        | none => rw [hrec] at h; exact absurd h (by simp)
        | some pr =>
          obtain ⟨content, r⟩ := pr
          rw [hrec] at h
          obtain ⟨rfl, rfl⟩ : Lit.str content = v ∧ r = rest := by simpa using h
          obtain ⟨b, hb1, hb2⟩ := parse_string_body_sound n rest0 content r hrec
          refine ⟨ws ++ '"' :: b, ?_, ValText.str ws b content hws hb2⟩
          rw [hcs, heq, hb1]
          simp
      · rename_i rest0 heq
        split at h
        · rename_i r2 heq2
          obtain ⟨rfl, rfl⟩ : Lit.arr [] = v ∧ r2 = rest := by simpa using h
          obtain ⟨ws2, hws2, hr0⟩ := skip_ws_split rest0
          refine ⟨ws ++ '[' :: (ws2 ++ [']']), ?_,
            ValText.arrNil ws ws2 hws hws2⟩
          rw [hcs, heq, hr0, heq2]
          simp
        · cases hrec : parse_items n rest0 with
          | none => rw [hrec] at h; exact absurd h (by simp)
          | some pr =>
            obtain ⟨vs, r⟩ := pr
            rw [hrec] at h
            obtain ⟨rfl, rfl⟩ : Lit.arr vs = v ∧ r = rest := by simpa using h
            obtain ⟨t, ht1, ht2⟩ := ihi rest0 vs r hrec
            refine ⟨ws ++ '[' :: t, ?_, ValText.arrCons ws t vs hws ht2⟩
            rw [hcs, heq, ht1]
            simp
      · rename_i rest0 heq
        split at h
        · exact absurd h (by simp)
        · rename_i hne
          obtain ⟨rfl, rfl⟩ :
              Lit.num (-(natOfDigits (rest0.takeWhile Char.isDigit) : Int)) = v
                ∧ rest0.dropWhile Char.isDigit = rest := by simpa using h
          have hval := ValText.num ws (rest0.takeWhile Char.isDigit) true hws hne
            (fun _ hc => List.mem_takeWhile_imp hc)
          simp at hval
          refine ⟨ws ++ ['-'] ++ rest0.takeWhile Char.isDigit, ?_, by simpa using hval⟩
          rw [hcs, heq]
          simp only [List.append_assoc, List.cons_append, List.nil_append]
          rw [List.takeWhile_append_dropWhile]
      · rename_i c rest0 hne1 hne2 hne3 heqc
        split at h
        · rename_i hdig
          obtain ⟨rfl, rfl⟩ :
              Lit.num ((natOfDigits ((c :: rest0).takeWhile Char.isDigit) : Int)) = v
                ∧ (c :: rest0).dropWhile Char.isDigit = rest := by simpa using h
          have hne : (c :: rest0).takeWhile Char.isDigit ≠ [] := by
            rw [List.takeWhile_cons_of_pos hdig]
            simp
          have hval := ValText.num ws ((c :: rest0).takeWhile Char.isDigit) false hws hne
            (fun x hx => List.mem_takeWhile_imp hx)
          simp at hval
          refine ⟨ws ++ (c :: rest0).takeWhile Char.isDigit, ?_, hval⟩
          rw [hcs, heqc]
          simp only [List.append_assoc]
          rw [List.takeWhile_append_dropWhile]
        · exact absurd h (by simp)
    · intro cs vs rest h
      rw [parse_items] at h
      cases hv : parse_val n cs with
      | none => rw [hv] at h; exact absurd h (by simp)
      | some pr =>
        obtain ⟨v0, rest0⟩ := pr
        rw [hv] at h
        dsimp only at h
        obtain ⟨tv, htv1, htv2⟩ := ihv cs v0 rest0 hv
        obtain ⟨ws2, hws2, hr0⟩ := skip_ws_split rest0
        split at h
        · rename_i r2 heq2
          cases hrec : parse_items n r2 with
          | none => rw [hrec] at h; exact absurd h (by simp)
          | some pr2 =>
            obtain ⟨vs2, r3⟩ := pr2
            rw [hrec] at h
            obtain ⟨rfl, rfl⟩ : v0 :: vs2 = vs ∧ r3 = rest := by simpa using h
            obtain ⟨t, ht1, ht2⟩ := ihi r2 vs2 r3 hrec
            refine ⟨tv ++ ws2 ++ ',' :: t, ?_,
              ItemsText.cons v0 vs2 tv ws2 t htv2 hws2 ht2⟩
            rw [htv1, hr0, heq2, ht1]
            simp
        · rename_i r2 heq2
          obtain ⟨rfl, rfl⟩ : [v0] = vs ∧ r2 = rest := by simpa using h
          refine ⟨tv ++ ws2 ++ [']'], ?_, ItemsText.last v0 tv ws2 htv2 hws2⟩
          rw [htv1, hr0, heq2]
          simp
        · exact absurd h (by simp)

/-- C3: for every response text interpreted by the host
(`Board.eval_json`, i.e. `json.loads` after quote normalisation), a
successful parse means the consumed text is generated by the restricted
literal grammar of numbers, strings, brackets and commas (plus trailing
whitespace).  Parsing is embedded as a pure total function into the
literal-value type `Lit`, so interpreting a response never executes code
contained in it. -/
theorem C3_literal_grammar (response : List Char) (v : Lit)
    (h : eval_json_of_text response = some v) :
    ∃ pre trail,
      response.map (fun c => if c = '\'' then '"' else c) = pre ++ trail
      ∧ ValText v pre ∧ IsWs trail := by
  rw [eval_json_of_text, json_loads] at h
  cases hv : parse_val ((response.map (fun c => if c = '\'' then '"' else c)).length + 1)
      (response.map (fun c => if c = '\'' then '"' else c)) with
  | none => rw [hv] at h; exact absurd h (by simp)
  | some pr =>
    obtain ⟨v0, rest⟩ := pr
    rw [hv] at h
    dsimp only at h
    by_cases hsk : skip_ws rest = []
    · rw [if_pos hsk] at h
      obtain rfl : v0 = v := by simpa using h
      obtain ⟨pre, hpre1, hpre2⟩ :=
        (parse_sound ((response.map (fun c => if c = '\'' then '"' else c)).length + 1)).1
          _ v0 rest hv
      refine ⟨pre, rest, hpre1, hpre2, ?_⟩
      rw [skip_ws, List.dropWhile_eq_nil_iff] at hsk
      exact hsk
    · rw [if_neg hsk] at h
      exact absurd h (by simp)

/-- Witness for C3 at the concrete response `['x', 10]`. -/
theorem C3_witness :
    ∃ pre trail,
      (String.data "['x', 10]").map (fun c => if c = '\'' then '"' else c)
        = pre ++ trail
      ∧ ValText (Lit.arr [Lit.str ['x'], Lit.num 10]) pre ∧ IsWs trail :=
  C3_literal_grammar (String.data "['x', 10]")
    (Lit.arr [Lit.str ['x'], Lit.num 10]) (by rfl)

end MprThing
